import Mathlib

/-!
Verification development for the mixtape music-collection indexing core.

The definitions below are a shallow embedding of the Python sources:
  - `src/music_collection/_extractor.py`   (`CollectionExtractor`: tag extraction with
    fallback rules, the sqlite `tracks` table, `resync`, `is_synced_with_filesystem`,
    and the inline `Watcher.on_any_event` handler);
  - `src/app_search.py`                    (`MusicCollection`: the Whoosh search index,
    `_index_single_track`, `search` / `_whoosh_search` / `_collect_search_hits`,
    `build_indexes`, `_update_single_file`, `_delete_file`);
  - `src/read_library.py`                  (CLI variant; consulted for the watcher
    move semantics).

Modelling conventions:
  - Python strings are Lean `String`s; Python truthiness of a possibly-`None`
    string is `truthy : Option String → Bool` (`None` and `""` are falsy) and the
    short-circuiting `or` is `pyOrS`.
  - `pathlib.Path` values are absolute paths modelled as their list of
    components below the filesystem root (`PyPath`); `len(path.parents)` equals
    the number of components, `path.name`, `path.parent`, `path.stem` and
    `path.suffix` follow pathlib semantics.
  - `str.strip()` is modelled over the ASCII whitespace characters Python
    strips (space, tab, newline, carriage return, vertical tab, form feed).
  - sqlite REAL timestamps (`mtime`) and durations are compared only for
    equality in the sources, so they are modelled as `Int` values.
  - a parsed-tag object is `Option Tag`: `none` is a failed `TinyTag.get`;
    a `none` field inside a `Tag` is a tag attribute that is `None`.
-/

/-- Characters removed by Python `str.strip()` (the ASCII whitespace set). -/
def isPyWs (c : Char) : Bool :=
  (c == ' ') || (c == '\t') || (c == '\n') || (c == '\r') ||
  (c == Char.ofNat 11) || (c == Char.ofNat 12)

/-- Strip of a character list: drop leading whitespace, then trailing whitespace. -/
def stripChars (l : List Char) : List Char :=
  ((l.dropWhile isPyWs).reverse.dropWhile isPyWs).reverse

/-- Python `s.strip()`. -/
def pyStrip (s : String) : String := ⟨stripChars s.data⟩

/-- Python `s.lower()` (ASCII case folding as used on the tag fields here). -/
def pyLower (s : String) : String := ⟨s.data.map Char.toLower⟩

/-- Python truthiness of a str-or-None value: `None` and `""` are falsy. -/
def truthy : Option String → Bool
  | none => false
  | some s => decide (s ≠ "")

/-- Python `a or b` on str-or-None values. -/
def pyOrS (a b : Option String) : Option String := if truthy a then a else b

/-- An absolute `pathlib.Path`, as its component list below the filesystem root
(`/home/mark/Music/t.mp3` is `⟨["home", "mark", "Music", "t.mp3"]⟩`). -/
structure PyPath where
  components : List String
deriving DecidableEq

/-- `path.name`: the final component (the empty string for the root). -/
def PyPath.name (p : PyPath) : String := (p.components.getLast?).getD ""

/-- `path.parent` (the root is its own parent, matching pathlib). -/
def PyPath.parent (p : PyPath) : PyPath := ⟨p.components.dropLast⟩

/-- `len(path.parents)`: for an absolute path this is its component count. -/
def PyPath.parentsLen (p : PyPath) : Nat := p.components.length

/-- Index of the last dot of a name, as `name.rfind(".")` computes it. -/
def rfindDot (cs : List Char) : Option Nat :=
  match cs.reverse.findIdx? (fun c => c == '.') with
  | none => none
  | some j => some (cs.length - 1 - j)

/-- `path.suffix` per pathlib: the part of the name from its last dot, provided
that dot is neither the first nor the last character of the name. -/
def PyPath.suffix (p : PyPath) : String :=
  let cs := p.name.data
  match rfindDot cs with
  | some i => if 0 < i ∧ i < cs.length - 1 then ⟨cs.drop i⟩ else ""
  | none => ""

/-- `path.stem` per pathlib: the name without the `suffix`. -/
def PyPath.stem (p : PyPath) : String :=
  let cs := p.name.data
  match rfindDot cs with
  | some i => if 0 < i ∧ i < cs.length - 1 then ⟨cs.take i⟩ else p.name
  | none => p.name

/-- Render `str(path)` for comparison with string-keyed stores. -/
def renderPath (p : PyPath) : String :=
  p.components.foldl (fun acc c => acc ++ "/" ++ c) ""

/-- A successfully parsed `TinyTag` object; `none` fields are `None` attributes. -/
structure Tag where
  artist : Option String
  albumartist : Option String
  album : Option String
  title : Option String
  genre : Option String
  year : Option String
  duration : Option Int
deriving DecidableEq

/-- The supported audio extension set (`CollectionExtractor.SUPPORTED_EXTS`,
identical in the other two variants). -/
def SUPPORTED_EXTS : List String :=
  [".mp3", ".flac", ".ogg", ".oga", ".m4a", ".mp4", ".wav", ".wma"]

/-- `_extract_artist` (`_extractor.py` lines 160-164): the tag artist, else the
tag album-artist, else — when `len(path.parents) >= 3` — the grandparent
directory name, else `"Unknown"`; the result is stripped. -/
def extractArtist (tag : Option Tag) (p : PyPath) : String :=
  let artist := pyOrS (tag.bind Tag.artist) (tag.bind Tag.albumartist)
  let artist := if truthy artist = false ∧ 3 ≤ p.parentsLen
    then some p.parent.parent.name else artist
  pyStrip ((pyOrS artist (some "Unknown")).getD "")

/-- The directory names `_extract_album` treats as generic. -/
def genericAlbumNames : List String := ["", ".", "..", "Music", "music"]

/-- `_extract_album` (`_extractor.py` lines 166-172): the tag album, else the
parent directory name, replaced by the grandparent name when it is generic and
`len(path.parents) >= 3`; else `"Unknown"`; stripped. -/
def extractAlbum (tag : Option Tag) (p : PyPath) : String :=
  let album := tag.bind Tag.album
  let album := if truthy album then album else
    let a := p.parent.name
    some (if a ∈ genericAlbumNames ∧ 3 ≤ p.parentsLen then p.parent.parent.name else a)
  pyStrip ((pyOrS album (some "Unknown")).getD "")

/-- `_extract_title` (`_extractor.py` lines 174-175): the tag title, else the
file stem, else `"Unknown"`; stripped. -/
def extractTitle (tag : Option Tag) (p : PyPath) : String :=
  pyStrip ((pyOrS (pyOrS (tag.bind Tag.title) (some p.stem)) (some "Unknown")).getD "")

/-- Parse of a decimal integer as Python `int()` accepts it here: an optional
sign followed by at least one digit (the `_safe_int_year` input has already
been stripped and split, so no interior whitespace remains). -/
def pyIntParse (s : String) : Option Int :=
  let core := match s.data with
    | '-' :: rest => some (true, rest)
    | '+' :: rest => some (false, rest)
    | rest => some (false, rest)
  match core with
  | some (neg, ds) =>
    if ds ≠ [] ∧ ds.all Char.isDigit then
      let n : Nat := ds.foldl (fun acc c => acc * 10 + (c.toNat - 48)) 0
      some (if neg then -(n : Int) else (n : Int))
    else none
  | none => none

/-- First segment of `s` before a separator character, as
`s.split(sep, 1)[0]` computes it. -/
def firstSegBefore (sep : Char) (s : String) : String :=
  ⟨s.data.takeWhile (fun c => c != sep)⟩

/-- `_safe_int_year` (`_extractor.py` lines 152-158): `None` on falsy input,
else the integer value of the stripped text before the first `-` and first `.`,
and `None` when that fails to parse. -/
def safeIntYear (value : Option String) : Option Int :=
  if truthy value = false then none
  else pyIntParse (firstSegBefore '.' (firstSegBefore '-' (pyStrip (value.getD ""))))

/-- A row of the `tracks` table as `_index_file` writes it
(`_extractor.py` lines 135-150). -/
structure Record where
  path : PyPath
  filename : String
  artist : String
  album : String
  title : String
  albumartist : Option String
  genre : Option String
  year : Option Int
  duration : Option Int
  mtime : Int
deriving DecidableEq

/-- `_index_file` (`_extractor.py` lines 124-150) as a record constructor: the
tag parse is already `contextlib.suppress`-ed into `Option Tag`, every fallback
is applied, and the row value is returned.  The `mtime` argument is the
`path.stat().st_mtime` observed at extraction time. -/
def indexFileRecord (tag : Option Tag) (p : PyPath) (mtime : Int) : Record :=
  { path := p
    filename := p.name
    artist := extractArtist tag p
    album := extractAlbum tag p
    title := extractTitle tag p
    albumartist := tag.bind Tag.albumartist
    genre := tag.bind Tag.genre
    year := safeIntYear (tag.bind Tag.year)
    duration := tag.bind Tag.duration
    mtime := mtime }

/-!
PrimaryStore (`tracks` table) model: an association list keyed by path, with
`INSERT OR REPLACE` upsert, keyed delete, and point lookup.
-/

/-- The `tracks` table, one row per path. -/
abbrev TrackDB := List (PyPath × Record)

/-- `SELECT ... WHERE path = ?`: the row with the given key, if any. -/
def lookupDB : TrackDB → PyPath → Option Record
  | [], _ => none
  | e :: rest, p => if e.1 = p then some e.2 else lookupDB rest p

/-- `INSERT OR REPLACE`: any existing row with the key is replaced. -/
def upsertDB (db : TrackDB) (k : PyPath) (r : Record) : TrackDB :=
  db.filter (fun e => decide (e.1 ≠ k)) ++ [(k, r)]

/-- `DELETE FROM tracks WHERE path = ?` over a list of keys
(the `executemany` in `resync`). -/
def deleteManyDB (db : TrackDB) (ks : List PyPath) : TrackDB :=
  db.filter (fun e => decide (e.1 ∉ ks))

/-- The key set of the table (`SELECT path FROM tracks`). -/
def dbKeys (db : TrackDB) : List PyPath := db.map Prod.fst

/-- The filesystem view of one supported audio file on disk: its parsed tag
(`none` when `TinyTag.get` raises) and its current `st_mtime`. -/
structure FsFile where
  tag : Option Tag
  mtime : Int
deriving DecidableEq

/-- `CollectionExtractor.resync` (`_extractor.py` lines 77-104): diff the
filesystem listing against the table keys, delete rows whose path vanished,
and `_index_file` every path not yet in the table.  `fs` is the extension-
filtered `rglob` listing together with each file's tag/mtime oracle; Python
set iteration is modelled by the listing order (the properties proved below
are order-independent). -/
def resync (db : TrackDB) (fs : List (PyPath × FsFile)) : TrackDB :=
  let dbPaths := dbKeys db
  let fsPaths := fs.map Prod.fst
  let toAdd := fs.filter (fun x => decide (x.1 ∉ dbPaths))
  let toRemove := dbPaths.filter (fun q => decide (q ∉ fsPaths))
  let db1 := deleteManyDB db toRemove
  toAdd.foldl (fun acc x => upsertDB acc x.1 (indexFileRecord x.2.tag x.1 x.2.mtime)) db1

/-- A Whoosh document as `_index_single_track` stores it: the path plus the
three lower-cased text fields. -/
structure WhooshDoc where
  path : String
  artist : String
  album : String
  title : String
deriving DecidableEq

/-- The search-index side of the dual-store state: the list of documents,
keyed by `path`. -/
abbrev IdxDB := List WhooshDoc

/-- The dual-store effect of `resync`: `_extractor.py` contains no search-index
handle at all — `resync` issues only sqlite statements — so the SearchIndex
component of the system state is returned unchanged. -/
def systemResync (db : TrackDB) (idx : IdxDB) (fs : List (PyPath × FsFile)) :
    TrackDB × IdxDB :=
  (resync db fs, idx)

/-- A watchdog event as `Watcher.on_any_event` (`_extractor.py` lines 187-200)
inspects it: `src_path` is absent exactly when the event type carries none. -/
structure FsEvent where
  eventType : String
  isDirectory : Bool
  srcPath : Option PyPath
  destPath : Option PyPath
deriving DecidableEq

/-- `Watcher.on_any_event` (`_extractor.py` lines 187-200): directories are
ignored; the inspected path is `src_path` when present else `dest_path`;
unsupported extensions are ignored; `deleted`/`moved` events delete the source
row; otherwise, when the path exists on disk, it is `_index_file`-ed (errors
suppressed).  `fsHas` is the disk oracle: the file at a path, if it exists. -/
def onAnyEvent (db : TrackDB) (ev : FsEvent) (fsHas : PyPath → Option FsFile) : TrackDB :=
  if ev.isDirectory then db
  else
    let path := match ev.srcPath with
      | some p => p
      | none => ev.destPath.getD ⟨[]⟩
    if pyLower path.suffix ∉ SUPPORTED_EXTS then db
    else if (ev.eventType = "deleted" ∨ ev.eventType = "moved") ∧ ev.srcPath.isSome then
      deleteManyDB db [ev.srcPath.getD ⟨[]⟩]
    else match fsHas path with
      | some f => upsertDB db path (indexFileRecord f.tag path f.mtime)
      | none => db

/-- The dual-store effect of a watcher event in `_extractor.py`: the module has
no search-index handle, so the SearchIndex component never changes. -/
def systemOnAnyEvent (db : TrackDB) (idx : IdxDB) (ev : FsEvent)
    (fsHas : PyPath → Option FsFile) : TrackDB × IdxDB :=
  (onAnyEvent db ev fsHas, idx)

/-- A `(path, mtime)` row as sampled by `is_synced_with_filesystem`. -/
structure SyncRow where
  path : String
  mtime : Option Int
deriving DecidableEq

/-- `is_synced_with_filesystem` (`_extractor.py` lines 65-75): sample up to
`sampleSize` rows (the argument list is the table in its `ORDER BY RANDOM()`
order, so `take` models the `LIMIT`); a sampled row fails when its file no
longer exists, its stored mtime is `NULL`, or the current `st_mtime`
differs. -/
def isSyncedWithFilesystem (rowsRandomOrder : List SyncRow) (sampleSize : Nat)
    (fsExists : String → Bool) (fsMtime : String → Int) : Bool :=
  (rowsRandomOrder.take sampleSize).all fun row =>
    fsExists row.path &&
      match row.mtime with
      | none => false
      | some m => decide (fsMtime row.path = m)

/-!
Whoosh search model (`app_search.py` lines 144-176, `read_library.py` uses the
same parser setup).  `_whoosh_search` hands `f"{query}~1"` to a
`MultifieldParser` over `artist`/`album`/`title` with the `FuzzyTermPlugin`.
The Whoosh semantics embedded here:
  - the query text is whitespace-tokenized and lower-cased by the schema
    analyzer; the parser's default group is AND, and a `MultifieldParser` term
    matches when it matches in ANY of the three fields, so a term test is a
    membership test in the union of the document's field tokens;
  - `FuzzyTermPlugin` syntax attaches `~maxdist` to the single term it
    suffixes, so appending `~1` to the raw query string makes only the LAST
    whitespace-separated term fuzzy (edit distance 1, prefix length 0); all
    other terms remain exact term queries;
  - document fields were stored lower-cased by `_index_single_track`, and are
    whitespace-tokenized the same way (the analyzer's stoplist and minimum
    token size are not modelled; no string involved in the claims is a
    stopword or a one-character token);
  - native relevance scoring is not modelled: hits keep index order, which is
    sufficient for the membership properties claimed.
-/

/-- Accumulator worker for whitespace tokenization: `acc` holds the reversed
characters of the token in progress. -/
def splitWsAux : List Char → List Char → List (List Char)
  | [], acc => if acc = [] then [] else [acc.reverse]
  | c :: cs, acc =>
    if isPyWs c then
      if acc = [] then splitWsAux cs [] else acc.reverse :: splitWsAux cs []
    else splitWsAux cs (c :: acc)

/-- Whitespace tokenization of a character list (runs of whitespace separate
tokens, empty tokens are dropped), as both the analyzer and `str.split()`
produce it. -/
def splitWs (l : List Char) : List (List Char) := splitWsAux l []

/-- One row update of the Levenshtein dynamic program: `diag`, `left` and
`prev` are the usual top-left, left and top cells. -/
def levRow (x : Char) : List Char → Nat → Nat → List Nat → List Nat
  | [], _, _, _ => []
  | y :: ys, diag, left, prev =>
    match prev with
    | [] => []
    | p :: ps =>
      let cur := min (p + 1) (min (left + 1) (diag + (if x = y then 0 else 1)))
      cur :: levRow x ys p cur ps

/-- Levenshtein edit distance (insertion / deletion / substitution each cost
1), the distance bound enforced by a Whoosh `FuzzyTerm` with `maxdist`;
computed by the standard row dynamic program. -/
def lev (xs ys : List Char) : Nat :=
  (xs.foldl
    (fun row x =>
      match row with
      | [] => []
      | p0 :: ps => (p0 + 1) :: levRow x ys p0 (p0 + 1) ps)
    (List.range (ys.length + 1))).getLastD 0

/-- A parsed query term: exact, or fuzzy with a maximum edit distance. -/
inductive QTerm where
  | exact (s : List Char)
  | fuzzy (s : List Char) (maxdist : Nat)
deriving DecidableEq

/-- Parse of one whitespace token by the fuzzy-enabled parser: a trailing `~1`
marks the token it suffixes as fuzzy at distance 1; otherwise the token is an
exact term.  The analyzer lower-cases either way. -/
def parseTok (t : List Char) : QTerm :=
  if t.reverse.take 2 = ['1', '~']
  then QTerm.fuzzy ((t.reverse.drop 2).reverse.map Char.toLower) 1
  else QTerm.exact (t.map Char.toLower)

/-- `parser.parse(f"{query}~1")` (`_whoosh_search`, `app_search.py` line 155):
the plugin sees the raw query with `~1` appended, so only the final
whitespace-separated token becomes a fuzzy term. -/
def parseFuzzyQuery (q : String) : List QTerm :=
  (splitWs (q ++ "~1").data).map parseTok

/-- The union of a document's field tokens, the candidate set a
`MultifieldParser` term is matched against. -/
def docTokensL (d : WhooshDoc) : List (List Char) :=
  splitWs d.artist.data ++ splitWs d.album.data ++ splitWs d.title.data

/-- Whether one parsed term matches a document's token set. -/
def matchTerm (toks : List (List Char)) : QTerm → Bool
  | QTerm.exact s => decide (s ∈ toks)
  | QTerm.fuzzy s dist => toks.any (fun t => decide (lev s t ≤ dist))

/-- AND of all parsed terms (the parser's default group). -/
def matchesQuery (q : String) (d : WhooshDoc) : Bool :=
  (parseFuzzyQuery q).all (matchTerm (docTokensL d))

/-- `searcher.search(q, limit=limit)`: the matching documents, capped at
`limit` (index order stands in for native scoring order). -/
def whooshSearch (q : String) (idx : IdxDB) (limit : Nat) : IdxDB :=
  (idx.filter (matchesQuery q)).take limit

/-- A row as `_collect_search_hits` reads it back from sqlite
(`SELECT artist, album, title, path FROM tracks WHERE path = ?`). -/
structure DbRow where
  path : String
  artist : String
  album : String
  title : String
deriving DecidableEq

/-- One hit dict returned by `MusicCollection.search`. -/
structure SearchHit where
  path : String
  artist : String
  album : String
  title : String
deriving DecidableEq

/-- Python `str.title()` over ASCII: a letter is upper-cased when the previous
character is not a letter, lower-cased otherwise. -/
def titleAux : Bool → List Char → List Char
  | _, [] => []
  | prevAlpha, c :: cs =>
    (if c.isAlpha then (if prevAlpha then c.toLower else c.toUpper) else c)
      :: titleAux c.isAlpha cs

/-- Python `str.title()`. -/
def pyTitleCase (s : String) : String := ⟨titleAux false s.data⟩

/-- `_collect_search_hits` (`app_search.py` lines 158-176): hydrate each hit
from the tracks table when the row still exists, else fall back to the stored
(lower-cased) index fields, title-cased. -/
def collectHit (db : List DbRow) (h : WhooshDoc) : SearchHit :=
  match db.find? (fun r => r.path == h.path) with
  | some r => ⟨r.path, r.artist, r.album, r.title⟩
  | none => ⟨h.path, pyTitleCase h.artist, pyTitleCase h.album, pyTitleCase h.title⟩

/-- `MusicCollection.search` (`app_search.py` lines 144-149): the empty /
whitespace-only query short-circuits to `[]` before any index or table access;
otherwise the Whoosh results are hydrated against the tracks table. -/
def searchMC (idx : IdxDB) (db : List DbRow) (q : String) (limit : Nat) : List SearchHit :=
  if pyStrip q = "" then [] else (whooshSearch q idx limit).map (collectHit db)

/-- A row of the sqlite table as `_index_single_track` (`app_search.py` lines
110-124) inserts it: `year` is passed through as raw tag text there. -/
structure AppTrackRow where
  path : PyPath
  filename : String
  artist : String
  album : String
  title : String
  albumartist : Option String
  genre : Option String
  year : Option String
  duration : Option Int
deriving DecidableEq

/-- Attribute access `tag.f` on a maybe-`None` tag object: raises
`AttributeError` when the object is `None`. -/
def attrOrRaise (tag : Option Tag) (f : Tag → Option String) : Except String (Option String) :=
  match tag with
  | none => Except.error "AttributeError"
  | some t => Except.ok (f t)

/-- `MusicCollection._index_single_track` (`app_search.py` lines 93-124).  A
failed `TinyTag.get` leaves `tag = None` (line 97); lines 99-101 then read
`tag.artist`, `tag.album`, `tag.title` by plain attribute access, which raises
on `None` — modelled by the `Except` error.  On success the Whoosh document
(lower-cased fields) and the sqlite row are produced; the remaining fields use
`getattr(tag, ..., None) if tag else None` and cannot raise. -/
def indexSingleTrack (tag : Option Tag) (p : PyPath) :
    Except String (WhooshDoc × AppTrackRow) := do
  let ta ← attrOrRaise tag Tag.artist
  let tart ← if truthy ta then pure ta else attrOrRaise tag Tag.albumartist
  let artist := pyStrip
    ((pyOrS (pyOrS tart (some p.parent.parent.name)) (some "Unknown")).getD "")
  let talb ← attrOrRaise tag Tag.album
  let album := pyStrip ((pyOrS (pyOrS talb (some p.parent.name)) (some "Unknown")).getD "")
  let ttit ← attrOrRaise tag Tag.title
  let title := pyStrip ((pyOrS ttit (some p.stem)).getD "")
  Except.ok
    (⟨renderPath p, pyLower artist, pyLower album, pyLower title⟩,
     { path := p, filename := p.name, artist := artist, album := album, title := title
       albumartist := tag.bind Tag.albumartist, genre := tag.bind Tag.genre
       year := tag.bind Tag.year, duration := tag.bind Tag.duration })

/-!
Lock-usage traces (`app_search.py`): which store writes happen inside the one
shared `self._lock`.  Each operation is abstracted to its sequence of
lock/store actions, read off the source line by line.
-/

/-- An action relevant to mutation serialization. -/
inductive MutAction where
  | lockAcquire
  | lockRelease
  | dbWrite
  | idxWrite
deriving DecidableEq

/-- Whether every store write in the trace happens while the lock is held
(`d` is the current hold depth). -/
def writesLocked : Nat → List MutAction → Bool
  | _, [] => true
  | d, MutAction.lockAcquire :: r => writesLocked (d + 1) r
  | d, MutAction.lockRelease :: r => writesLocked (d - 1) r
  | d, MutAction.dbWrite :: r => decide (0 < d) && writesLocked d r
  | d, MutAction.idxWrite :: r => decide (0 < d) && writesLocked d r

/-- `_update_single_file` (`app_search.py` lines 214-224): `with self._lock:`
around the Whoosh `add_document` and the sqlite `INSERT OR REPLACE`. -/
def updateSingleFileTrace : List MutAction :=
  [MutAction.lockAcquire, MutAction.idxWrite, MutAction.dbWrite, MutAction.lockRelease]

/-- `_delete_file` (`app_search.py` lines 226-238): `with self._lock:` around
the Whoosh `delete_by_term` and the sqlite `DELETE`. -/
def deleteFileTrace : List MutAction :=
  [MutAction.lockAcquire, MutAction.idxWrite, MutAction.dbWrite, MutAction.lockRelease]

/-- `build_indexes` (`app_search.py` lines 64-85): recreates the index
directory, clears the table, then writes both stores for each of the `n`
files walked — with no acquisition of `self._lock` anywhere in the method. -/
def buildIndexesTrace (n : Nat) : List MutAction :=
  MutAction.idxWrite :: MutAction.dbWrite ::
    (List.replicate n [MutAction.idxWrite, MutAction.dbWrite]).flatten

/-- `resync` (`_extractor.py` lines 77-104): deletes `nRemove` rows and
upserts `nAdd` rows into the tracks table; the module has no lock object, so
no acquire/release appears in the trace. -/
def resyncTrace (nRemove nAdd : Nat) : List MutAction :=
  List.replicate nRemove MutAction.dbWrite ++ List.replicate nAdd MutAction.dbWrite

/-!
Helper lemmas about the association-list store.
-/

/-- A concrete filesystem record for witnesses: a tagged file. -/
def tagDaft : Tag :=
  ⟨some "Daft Punk", none, some "Discovery", some "One More Time", none, some "2000", some 320⟩

/-- A concrete already-indexed path. -/
def pKeep : PyPath := ⟨["Music", "K", "KA", "k.mp3"]⟩

/-- A path whose file has unreadable tags, for the C3 evaluation. -/
def pCorrupt : PyPath := ⟨["Music", "ArtistA", "AlbumB", "corrupt.mp3"]⟩

/-- Source path of the C6 move event. -/
def pMoveSrc : PyPath := ⟨["Music", "X", "Y", "a.mp3"]⟩

/-- Destination path of the C6 move event. -/
def pMoveDst : PyPath := ⟨["Music", "X", "Y", "b.mp3"]⟩

/-- The stale search-index document for the moved-away source file. -/
def srcDoc : WhooshDoc := ⟨renderPath pMoveSrc, "x", "y", "a"⟩

/-- The previously-indexed path that has vanished from disk (C1). -/
def pGone : PyPath := ⟨["Music", "ArtistG", "AlbumG", "g.mp3"]⟩

/-- The new on-disk path not yet indexed (C1). -/
def pNew : PyPath := ⟨["Music", "ArtistF", "AlbumF", "f.mp3"]⟩

/-- The search-index document of the vanished file (C1). -/
def goneDoc : WhooshDoc := ⟨renderPath pGone, "artistg", "albumg", "g"⟩

/-- The condition as the claim words it: the number of ancestor directories of
`p` strictly below the music root (for `p` lying under `root`).  This is a
spec-side definition, used only to compare the claim against the code. -/
def ancestorsBelowRoot (root p : PyPath) : Nat :=
  p.components.length - root.components.length - 1

/-- The fully tagged file used as the C5 witness. -/
def pDaft : PyPath := ⟨["Music", "Daft Punk", "Discovery", "One More Time.mp3"]⟩

/-- Whitespace-join of query tokens: the claim-side constructor used to range
over multi-term query strings. -/
def joinToks : List (List Char) → List Char
  | [] => []
  | t :: r => t ++ (if r = [] then [] else ' ' :: joinToks r)

/-- The query string with the given whitespace-separated tokens. -/
def joinQuery (toks : List String) : String := ⟨joinToks (toks.map String.data)⟩

/-- The concrete indexed track used for the fuzzy-search claims, stored as
`_index_single_track` lower-cases it. -/
def daftDoc : WhooshDoc :=
  ⟨"/Music/Daft Punk/Discovery/One More Time.mp3", "daft punk", "discovery",
   "one more time"⟩

theorem lookupDB_filter (db : TrackDB) (p : PyPath) (f : PyPath × Record → Bool)
    (h : ∀ e ∈ db, e.1 = p → f e = true) :
    lookupDB (db.filter f) p = lookupDB db p := by
  induction db with
  | nil => rfl
  | cons e rest ih =>
    rw [List.filter_cons]
    by_cases hf : f e = true
    · simp only [hf, if_true, lookupDB]
      by_cases hp : e.1 = p
      · simp [hp]
      · simp only [if_neg hp]
        exact ih fun x hx hxp => h x (List.mem_cons_of_mem _ hx) hxp
    · have hne : e.1 ≠ p := fun hp => hf (h e (List.mem_cons_self _ _) hp)
      simp only [hf]
      rw [if_neg (by simp)]
      have : lookupDB (e :: rest) p = lookupDB rest p := by simp [lookupDB, hne]
      rw [this]
      exact ih fun x hx hxp => h x (List.mem_cons_of_mem _ hx) hxp

theorem lookupDB_append_none (a b : TrackDB) (p : PyPath) (h : lookupDB a p = none) :
    lookupDB (a ++ b) p = lookupDB b p := by
  induction a with
  | nil => rfl
  | cons e rest ih =>
    by_cases hp : e.1 = p
    · simp [lookupDB, hp] at h
    · simp only [lookupDB, if_neg hp] at h
      simpa [lookupDB, if_neg hp] using ih h

theorem lookupDB_append_some (a b : TrackDB) (p : PyPath) (r : Record)
    (h : lookupDB a p = some r) : lookupDB (a ++ b) p = some r := by
  induction a with
  | nil => simp [lookupDB] at h
  | cons e rest ih =>
    by_cases hp : e.1 = p
    · simp only [List.cons_append, lookupDB, if_pos hp] at h ⊢
      exact h
    · simp only [List.cons_append, lookupDB, if_neg hp] at h ⊢
      exact ih h

theorem lookupDB_upsert_ne (db : TrackDB) (q : PyPath) (r : Record) (p : PyPath)
    (h : q ≠ p) : lookupDB (upsertDB db q r) p = lookupDB db p := by
  unfold upsertDB
  have hfilter : lookupDB (db.filter fun e => decide (e.1 ≠ q)) p = lookupDB db p := by
    apply lookupDB_filter
    intro e _ hep
    rw [hep, decide_eq_true_eq]
    exact fun hpq => h hpq.symm
  cases hl : lookupDB (db.filter fun e => decide (e.1 ≠ q)) p with
  | none =>
    rw [lookupDB_append_none _ _ _ hl, ← hfilter, hl]
    simp [lookupDB, h]
  | some r2 =>
    rw [lookupDB_append_some _ _ _ _ hl, ← hfilter, hl]

theorem lookupDB_foldl_upsert (l : List (PyPath × FsFile)) (db : TrackDB) (p : PyPath)
    (h : ∀ x ∈ l, x.1 ≠ p) :
    lookupDB
      (l.foldl (fun acc x => upsertDB acc x.1 (indexFileRecord x.2.tag x.1 x.2.mtime)) db)
      p = lookupDB db p := by
  induction l generalizing db with
  | nil => rfl
  | cons x xs ih =>
    rw [List.foldl_cons, ih _ fun y hy => h y (List.mem_cons_of_mem _ hy),
      lookupDB_upsert_ne _ _ _ _ (h x (List.mem_cons_self _ _))]

/-- C7: for every already-indexed path still present on disk, `resync` leaves
that path's stored row entirely unchanged, whatever tag contents or mtime the
file now has on disk: `resync` re-extracts only paths absent from the store
and deletes only paths absent from the disk. -/
theorem resync_leaves_present_rows_unchanged (db : TrackDB)
    (fs : List (PyPath × FsFile)) (p : PyPath)
    (hdb : p ∈ dbKeys db) (hfs : p ∈ fs.map Prod.fst) :
    lookupDB (resync db fs) p = lookupDB db p := by
  unfold resync
  rw [lookupDB_foldl_upsert]
  · unfold deleteManyDB
    apply lookupDB_filter
    intro e _ hep
    have hpnot : p ∉ (dbKeys db).filter fun q => decide (q ∉ fs.map Prod.fst) := by
      intro hmem
      have h2 := (List.mem_filter.1 hmem).2
      simp only [decide_eq_true_eq] at h2
      exact h2 hfs
    have hne : e.1 ∉ (dbKeys db).filter fun q => decide (q ∉ fs.map Prod.fst) :=
      hep ▸ hpnot
    simpa using hne
  · intro x hx
    have h2 := (List.mem_filter.1 hx).2
    simp only [decide_eq_true_eq] at h2
    exact fun hxp => h2 (hxp ▸ hdb)
/-- Witness for C7: a one-row store whose file is still on disk but now has a
different tag and a different mtime; `resync` leaves the row unchanged. -/
theorem resync_leaves_present_rows_unchanged_witness :
    lookupDB
      (resync [(pKeep, indexFileRecord none pKeep 1)]
        [(pKeep, ⟨some tagDaft, 99⟩), (⟨["Music", "N", "NA", "n.mp3"]⟩, ⟨none, 5⟩)])
      pKeep =
    lookupDB [(pKeep, indexFileRecord none pKeep 1)] pKeep :=
  resync_leaves_present_rows_unchanged _ _ _ (by decide) (by decide)

/-- C10: with zero rows in the tracks table the sampled set is empty for every
sample size, so `is_synced_with_filesystem` vacuously reports `True` whatever
the filesystem looks like: an empty database is never judged stale. -/
theorem isSynced_empty_table_true (sampleSize : Nat)
    (fsExists : String → Bool) (fsMtime : String → Int) :
    isSyncedWithFilesystem [] sampleSize fsExists fsMtime = true := by
  simp [isSyncedWithFilesystem]

/-- C8: `MusicCollection.search` on an empty or whitespace-only query returns
the empty list, for every index state, table state and limit — the
short-circuit fires before any store is consulted, so the result is
independent of both stores. -/
theorem search_empty_query_shortcircuit (idx : IdxDB) (db : List DbRow)
    (q : String) (limit : Nat) (h : pyStrip q = "") :
    searchMC idx db q limit = [] := by
  simp [searchMC, h]

/-- Witness for C8: the whitespace-only query `"   "` yields `[]`. -/
theorem search_empty_query_shortcircuit_witness :
    searchMC [] [] "   " 7 = [] :=
  search_empty_query_shortcircuit [] [] "   " 7 (by decide)

/-- Counterexample for C9: `build_indexes` performs store writes at lock depth
0 — it never acquires the shared mutex — so the claim that every writing
operation holds the mutex for its whole duration fails already on the rebuild
of a one-file tree. -/
theorem build_indexes_writes_unlocked :
    writesLocked 0 (buildIndexesTrace 1) = false := by decide

/-- C9 as amended: the two single-file watcher operations of
`MusicCollection` do hold the shared mutex around their writes to both
stores, but a rebuild (`build_indexes`) and a resync (which lives in
`_extractor.py`, a module with no lock object at all) perform every store
write without acquiring it. -/
theorem mutation_locking_status (n nRemove nAdd : Nat) (h : 0 < nRemove + nAdd) :
    writesLocked 0 updateSingleFileTrace = true ∧
    writesLocked 0 deleteFileTrace = true ∧
    writesLocked 0 (buildIndexesTrace n) = false ∧
    writesLocked 0 (resyncTrace nRemove nAdd) = false := by
  refine ⟨by decide, by decide, ?_, ?_⟩
  · simp [buildIndexesTrace, writesLocked]
  · cases nRemove with
    | zero =>
      cases nAdd with
      | zero => exact absurd h (by simp)
      | succ m => simp [resyncTrace, writesLocked, List.replicate_succ]
    | succ m => simp [resyncTrace, writesLocked, List.replicate_succ]

/-- Witness for the amended C9 at a two-file rebuild and a 1-delete/1-add
resync. -/
theorem mutation_locking_status_witness :
    writesLocked 0 updateSingleFileTrace = true ∧
    writesLocked 0 deleteFileTrace = true ∧
    writesLocked 0 (buildIndexesTrace 2) = false ∧
    writesLocked 0 (resyncTrace 1 1) = false :=
  mutation_locking_status 2 1 1 (by decide)
/-- C3 evaluated at the failing input: when the embedded tags cannot be parsed
(`TinyTag.get` raised, `tag = None`), `MusicCollection._index_single_track`
raises `AttributeError` from `tag.artist` instead of producing a record —
while the `_extractor.py` extraction of the same file does degrade to the
filesystem-derived defaults the claim describes. -/
theorem index_single_track_raises_on_unparsable_tags :
    indexSingleTrack none pCorrupt = Except.error "AttributeError" ∧
    (indexFileRecord none pCorrupt 3).artist = "ArtistA" ∧
    (indexFileRecord none pCorrupt 3).title = "corrupt" :=
  ⟨rfl, by decide, by decide⟩
/-- C6 evaluated at the failing input: a `moved` event from an indexed path A
to an on-disk path B (both with supported extensions).  The
`_extractor.py` handler deletes A from the tracks table but never indexes B —
the extract-and-upsert branch is an `elif` that is unreachable for `moved`
events — and the module touches no search index, so the stale document for A
survives there.  The claim requires B present in both stores. -/
theorem watcher_move_never_indexes_destination :
    (lookupDB
        (systemOnAnyEvent [(pMoveSrc, indexFileRecord none pMoveSrc 1)] [srcDoc]
            ⟨"moved", false, some pMoveSrc, some pMoveDst⟩
            (fun p => if p = pMoveDst then some ⟨some tagDaft, 9⟩ else none)).1
        pMoveSrc = none) ∧
    (lookupDB
        (systemOnAnyEvent [(pMoveSrc, indexFileRecord none pMoveSrc 1)] [srcDoc]
            ⟨"moved", false, some pMoveSrc, some pMoveDst⟩
            (fun p => if p = pMoveDst then some ⟨some tagDaft, 9⟩ else none)).1
        pMoveDst = none) ∧
    (systemOnAnyEvent [(pMoveSrc, indexFileRecord none pMoveSrc 1)] [srcDoc]
        ⟨"moved", false, some pMoveSrc, some pMoveDst⟩
        (fun p => if p = pMoveDst then some ⟨some tagDaft, 9⟩ else none)).2
      = [srcDoc] := by decide
/-- C1 evaluated at the failing input: starting from a consistent one-track
state, file f appears and file g disappears; after `resync()` the tracks
table converges to the filesystem ({f}) but the search index still holds
exactly {g} — `resync` removes vanished paths from the PrimaryStore only and
upserts new paths into the PrimaryStore only, so the two key sets diverge,
contradicting the claimed equality. -/
theorem resync_diverges_from_search_index :
    ((systemResync [(pGone, indexFileRecord none pGone 1)] [goneDoc]
        [(pNew, ⟨some tagDaft, 5⟩)]).1.map fun e => renderPath e.1)
      = [renderPath pNew] ∧
    ((systemResync [(pGone, indexFileRecord none pGone 1)] [goneDoc]
        [(pNew, ⟨some tagDaft, 5⟩)]).2.map WhooshDoc.path)
      = [renderPath pGone] ∧
    ((systemResync [(pGone, indexFileRecord none pGone 1)] [goneDoc]
        [(pNew, ⟨some tagDaft, 5⟩)]).1.map fun e => renderPath e.1)
      ≠ ((systemResync [(pGone, indexFileRecord none pGone 1)] [goneDoc]
        [(pNew, ⟨some tagDaft, 5⟩)]).2.map WhooshDoc.path) := by decide
/-- Counterexample for C4: for a file directly inside the music root
`/home/mark/Music`, zero ancestor directories lie below the root, so the claim
demands `artist = "Unknown"` — but `_extract_artist` tests
`len(path.parents) >= 3` against the filesystem root, which holds here, and
returns the grandparent name `"mark"`. -/
theorem artist_fallback_ignores_music_root :
    ancestorsBelowRoot ⟨["home", "mark", "Music"]⟩
        ⟨["home", "mark", "Music", "song.mp3"]⟩ = 0 ∧
    extractArtist none ⟨["home", "mark", "Music", "song.mp3"]⟩ = "mark" ∧
    extractArtist none ⟨["home", "mark", "Music", "song.mp3"]⟩ ≠ "Unknown" := by
  decide

/-- C4 as amended: an untagged file at `root/ArtistA/AlbumB/track.mp3` (the
root being a single top-level directory) yields artist `ArtistA` (stripped),
album `AlbumB` (stripped), title `track`; and the `"Unknown"` fallback
applies exactly when the absolute path has fewer than three ancestors counted
from the FILESYSTEM root (`len(path.parents) < 3`), not from the music
root. -/
theorem extraction_fallback_chain (r a b : String) (p : PyPath)
    (ha : a ≠ "") (hb : b ∉ genericAlbumNames) (hp : p.parentsLen < 3) :
    extractArtist none ⟨[r, a, b, "track.mp3"]⟩ = pyStrip a ∧
    extractAlbum none ⟨[r, a, b, "track.mp3"]⟩ = pyStrip b ∧
    extractTitle none ⟨[r, a, b, "track.mp3"]⟩ = "track" ∧
    extractArtist none p = "Unknown" := by
  have hb' : b ≠ "" := fun h => hb (by rw [h]; simp [genericAlbumNames])
  refine ⟨?_, ?_, ?_, ?_⟩
  · simp [extractArtist, PyPath.parent, PyPath.name, PyPath.parentsLen, truthy, pyOrS, ha]
  · simp [extractAlbum, PyPath.parent, PyPath.name, PyPath.parentsLen, truthy, pyOrS,
      hb, hb']
  · simp [extractTitle, PyPath.stem, PyPath.name, truthy, pyOrS, rfindDot]
    decide
  · have h3 : ¬(truthy (pyOrS ((none : Option Tag).bind Tag.artist)
        ((none : Option Tag).bind Tag.albumartist)) = false ∧ 3 ≤ p.parentsLen) :=
      fun hcon => absurd hcon.2 (Nat.not_le.2 hp)
    simp only [extractArtist, if_neg h3]
    decide

/-- Witness for the amended C4: the claim's own example tree plus a path with
only two ancestors, which does fall back to `"Unknown"`. -/
theorem extraction_fallback_chain_witness :
    extractArtist none ⟨["Music", "ArtistA", "AlbumB", "track.mp3"]⟩ = pyStrip "ArtistA" ∧
    extractAlbum none ⟨["Music", "ArtistA", "AlbumB", "track.mp3"]⟩ = pyStrip "AlbumB" ∧
    extractTitle none ⟨["Music", "ArtistA", "AlbumB", "track.mp3"]⟩ = "track" ∧
    extractArtist none ⟨["Music", "x.mp3"]⟩ = "Unknown" :=
  extraction_fallback_chain "Music" "ArtistA" "AlbumB" ⟨["Music", "x.mp3"]⟩
    (by decide) (by decide) (by decide)

/-!
Helper lemmas about `pyStrip` and path-component membership, for the
non-empty-field analysis.
-/

theorem pyStrip_ne_empty (s : String) (c : Char) (hc : c ∈ s.data)
    (hw : isPyWs c = false) : pyStrip s ≠ "" := by
  intro hcon
  have h0 : stripChars s.data = [] := congrArg String.data hcon
  unfold stripChars at h0
  rw [List.reverse_eq_nil_iff, List.dropWhile_eq_nil_iff] at h0
  have hsplit := List.takeWhile_append_dropWhile (p := isPyWs) (l := s.data)
  rw [← hsplit] at hc
  rcases List.mem_append.1 hc with hin | hin
  · exact absurd (List.mem_takeWhile_imp hin) (by simp [hw])
  · have := h0 c (List.mem_reverse.2 hin)
    simp [hw] at this

theorem finalStripNe (x : Option String)
    (hx : ∀ s, x = some s → s ≠ "" → pyStrip s ≠ "") :
    pyStrip ((pyOrS x (some "Unknown")).getD "") ≠ "" := by
  cases x with
  | none => decide
  | some s =>
    by_cases hs : s = ""
    · subst hs; decide
    · have ht : truthy (some s) = true := by simp [truthy, hs]
      simp only [pyOrS, ht, if_true, Option.getD_some]
      exact hx s rfl hs

theorem getLastD_mem (L : List String) (h : (L.getLast?).getD "" ≠ "") :
    (L.getLast?).getD "" ∈ L := by
  cases hL : L.getLast? with
  | none => rw [hL] at h; simp at h
  | some x =>
    simp only [Option.getD_some]
    exact List.mem_of_mem_getLast? hL

theorem name_mem (p : PyPath) (h : p.name ≠ "") : p.name ∈ p.components := by
  simp only [PyPath.name] at h ⊢
  exact getLastD_mem _ h

theorem parent_name_mem (p : PyPath) (h : p.parent.name ≠ "") :
    p.parent.name ∈ p.components := by
  simp only [PyPath.parent, PyPath.name] at h ⊢
  exact (List.dropLast_sublist p.components).subset (getLastD_mem _ h)

theorem grandparent_name_mem (p : PyPath) (h : p.parent.parent.name ≠ "") :
    p.parent.parent.name ∈ p.components := by
  simp only [PyPath.parent, PyPath.name] at h ⊢
  exact (List.dropLast_sublist p.components).subset
    ((List.dropLast_sublist p.components.dropLast).subset (getLastD_mem _ h))

theorem extractArtist_ne_empty (tag : Option Tag) (p : PyPath)
    (h1 : ∀ s, tag.bind Tag.artist = some s → s ≠ "" → pyStrip s ≠ "")
    (h2 : ∀ s, tag.bind Tag.albumartist = some s → s ≠ "" → pyStrip s ≠ "")
    (hcomp : ∀ c ∈ p.components, pyStrip c ≠ "") :
    extractArtist tag p ≠ "" := by
  unfold extractArtist
  apply finalStripNe
  intro s hs hsne
  by_cases hcond : truthy (pyOrS (tag.bind Tag.artist) (tag.bind Tag.albumartist))
      = false ∧ 3 ≤ p.parentsLen
  · rw [if_pos hcond] at hs
    have := Option.some.inj hs
    subst this
    exact hcomp _ (grandparent_name_mem p hsne)
  · rw [if_neg hcond] at hs
    unfold pyOrS at hs
    by_cases ht : truthy (tag.bind Tag.artist) = true
    · rw [if_pos ht] at hs
      exact h1 s hs hsne
    · rw [if_neg ht] at hs
      exact h2 s hs hsne

theorem extractAlbum_ne_empty (tag : Option Tag) (p : PyPath)
    (h3 : ∀ s, tag.bind Tag.album = some s → s ≠ "" → pyStrip s ≠ "")
    (hcomp : ∀ c ∈ p.components, pyStrip c ≠ "") :
    extractAlbum tag p ≠ "" := by
  unfold extractAlbum
  apply finalStripNe
  intro s hs hsne
  by_cases ht : truthy (tag.bind Tag.album) = true
  · rw [if_pos ht] at hs
    exact h3 s hs hsne
  · rw [if_neg ht] at hs
    have hs' := Option.some.inj hs
    by_cases hgen : p.parent.name ∈ genericAlbumNames ∧ 3 ≤ p.parentsLen
    · rw [if_pos hgen] at hs'
      subst hs'
      exact hcomp _ (grandparent_name_mem p hsne)
    · rw [if_neg hgen] at hs'
      subst hs'
      exact hcomp _ (parent_name_mem p hsne)

theorem extractTitle_ne_empty (tag : Option Tag) (p : PyPath)
    (h4 : ∀ s, tag.bind Tag.title = some s → s ≠ "" → pyStrip s ≠ "")
    (hstem : p.stem = "" ∨ pyStrip p.stem ≠ "") :
    extractTitle tag p ≠ "" := by
  unfold extractTitle
  apply finalStripNe
  intro s hs hsne
  unfold pyOrS at hs
  by_cases ht : truthy (tag.bind Tag.title) = true
  · rw [if_pos ht] at hs
    exact h4 s hs hsne
  · rw [if_neg ht] at hs
    have := Option.some.inj hs
    subst this
    cases hstem with
    | inl h => exact absurd h hsne
    | inr h => exact h

theorem name_ne_empty (p : PyPath) (hne : p.components ≠ [])
    (hcomp : ∀ c ∈ p.components, pyStrip c ≠ "") : p.name ≠ "" := by
  cases hL : p.components.getLast? with
  | none =>
    rw [List.getLast?_eq_none_iff] at hL
    exact absurd hL hne
  | some x =>
    have hx : x ∈ p.components := List.mem_of_mem_getLast? hL
    have hpx : p.name = x := by simp [PyPath.name, hL]
    rw [hpx]
    intro h
    exact hcomp x hx (by rw [h]; rfl)

/-- Counterexample for C5: a tag whose artist field is the single space
`" "` is truthy in Python, so the fallback chain keeps it, and the trailing
`.strip()` then empties it — the extracted record's `artist` is `""`. -/
theorem whitespace_tag_yields_empty_artist :
    (indexFileRecord (some ⟨some " ", none, none, none, none, none, none⟩)
      ⟨["Music", "ArtistA", "AlbumB", "track.mp3"]⟩ 0).artist = "" := by decide

/-- C5 as amended: the extracted `filename`, `artist`, `album` and `title`
are non-empty provided no string the fallback chain can select is
whitespace-only: each present tag text field, each path component, and the
file stem must strip to something non-empty (a whitespace-only tag field —
see the counterexample — yields an empty extracted field, because `.strip()`
runs after the `or`-fallback, not before it). -/
theorem extracted_record_fields_nonempty (tag : Option Tag) (p : PyPath) (mt : Int)
    (h1 : ∀ s, tag.bind Tag.artist = some s → s ≠ "" → pyStrip s ≠ "")
    (h2 : ∀ s, tag.bind Tag.albumartist = some s → s ≠ "" → pyStrip s ≠ "")
    (h3 : ∀ s, tag.bind Tag.album = some s → s ≠ "" → pyStrip s ≠ "")
    (h4 : ∀ s, tag.bind Tag.title = some s → s ≠ "" → pyStrip s ≠ "")
    (hcomp : ∀ c ∈ p.components, pyStrip c ≠ "")
    (hne : p.components ≠ [])
    (hstem : p.stem = "" ∨ pyStrip p.stem ≠ "") :
    (indexFileRecord tag p mt).filename ≠ "" ∧
    (indexFileRecord tag p mt).artist ≠ "" ∧
    (indexFileRecord tag p mt).album ≠ "" ∧
    (indexFileRecord tag p mt).title ≠ "" := by
  refine ⟨?_, ?_, ?_, ?_⟩ <;> simp only [indexFileRecord]
  · exact name_ne_empty p hne hcomp
  · exact extractArtist_ne_empty tag p h1 h2 hcomp
  · exact extractAlbum_ne_empty tag p h3 hcomp
  · exact extractTitle_ne_empty tag p h4 hstem
/-- Witness for the amended C5 on a concrete tagged file. -/
theorem extracted_record_fields_nonempty_witness :
    (indexFileRecord (some tagDaft) pDaft 3).filename ≠ "" ∧
    (indexFileRecord (some tagDaft) pDaft 3).artist ≠ "" ∧
    (indexFileRecord (some tagDaft) pDaft 3).album ≠ "" ∧
    (indexFileRecord (some tagDaft) pDaft 3).title ≠ "" :=
  extracted_record_fields_nonempty (some tagDaft) pDaft 3
    (fun s hs => by cases hs; intro h; decide)
    (fun s hs => by cases hs)
    (fun s hs => by cases hs; intro h; decide)
    (fun s hs => by cases hs; intro h; decide)
    (by decide) (by decide) (Or.inr (by decide))
/-!
Tokenization and parsing lemmas for the fuzzy-search analysis.
-/

theorem splitWs_ws_cons (c : Char) (r : List Char) (hc : isPyWs c = true) :
    splitWs (c :: r) = splitWs r := by
  show splitWsAux (c :: r) [] = splitWsAux r []
  rw [splitWsAux.eq_def]
  simp [hc]

theorem splitWsAux_noWs_sep (t : List Char) (r : List Char) :
    ∀ acc : List Char, (∀ c ∈ t, isPyWs c = false) → (acc ≠ [] ∨ t ≠ []) →
    splitWsAux (t ++ ' ' :: r) acc = (acc.reverse ++ t) :: splitWsAux r [] := by
  induction t with
  | nil =>
    intro acc _ hne
    have hacc : acc ≠ [] := by
      rcases hne with h | h
      · exact h
      · exact absurd rfl h
    simp only [List.nil_append, splitWsAux]
    rw [if_pos (by decide), if_neg hacc, List.append_nil]
  | cons c t ih =>
    intro acc h _
    have hc := h c (List.mem_cons_self _ _)
    simp only [List.cons_append, splitWsAux, List.append_eq]
    rw [if_neg (by simp [hc])]
    rw [ih (c :: acc) (fun a ha => h a (List.mem_cons_of_mem _ ha)) (Or.inl (by simp))]
    rw [List.reverse_cons, List.append_assoc, List.singleton_append]

theorem splitWsAux_noWs_end (t : List Char) :
    ∀ acc : List Char, (∀ c ∈ t, isPyWs c = false) → (acc ≠ [] ∨ t ≠ []) →
    splitWsAux t acc = [acc.reverse ++ t] := by
  induction t with
  | nil =>
    intro acc _ hne
    have hacc : acc ≠ [] := by
      rcases hne with h | h
      · exact h
      · exact absurd rfl h
    simp only [splitWsAux]
    rw [if_neg hacc, List.append_nil]
  | cons c t ih =>
    intro acc h _
    have hc := h c (List.mem_cons_self _ _)
    simp only [splitWsAux]
    rw [if_neg (by simp [hc])]
    rw [ih (c :: acc) (fun a ha => h a (List.mem_cons_of_mem _ ha)) (Or.inl (by simp))]
    rw [List.reverse_cons, List.append_assoc, List.singleton_append]

theorem splitWs_noWs (t : List Char) (hne : t ≠ []) (h : ∀ c ∈ t, isPyWs c = false) :
    splitWs t = [t] := by
  unfold splitWs
  rw [splitWsAux_noWs_end t [] h (Or.inr hne)]
  rfl

theorem splitWs_token_sep (t r : List Char) (hne : t ≠ [])
    (h : ∀ c ∈ t, isPyWs c = false) :
    splitWs (t ++ ' ' :: r) = t :: splitWs r := by
  unfold splitWs
  rw [splitWsAux_noWs_sep t r [] h (Or.inr hne)]
  rfl

theorem splitWs_join (pre : List (List Char)) (lastTok sfx : List Char)
    (hpre : ∀ t ∈ pre, t ≠ [] ∧ ∀ c ∈ t, isPyWs c = false)
    (hlast : lastTok ≠ []) (hlastc : ∀ c ∈ lastTok, isPyWs c = false)
    (hsfxc : ∀ c ∈ sfx, isPyWs c = false) :
    splitWs (joinToks (pre ++ [lastTok]) ++ sfx) = pre ++ [lastTok ++ sfx] := by
  induction pre with
  | nil =>
    have hnil : joinToks [lastTok] = lastTok := by simp [joinToks]
    rw [List.nil_append, hnil]
    exact splitWs_noWs (lastTok ++ sfx) (by simp [hlast]) fun c hc => by
      rcases List.mem_append.1 hc with h1 | h1
      · exact hlastc c h1
      · exact hsfxc c h1
  | cons t pre ih =>
    obtain ⟨htne, htc⟩ := hpre t (List.mem_cons_self _ _)
    have hrest : pre ++ [lastTok] ≠ [] := by simp
    simp only [List.cons_append, joinToks, List.append_eq]
    rw [if_neg hrest, List.append_assoc, List.cons_append]
    rw [splitWs_token_sep t _ htne htc]
    rw [ih fun x hx => hpre x (List.mem_cons_of_mem _ hx)]

theorem parseTok_append_fuzzy (t : List Char) :
    parseTok (t ++ ['~', '1']) = QTerm.fuzzy (t.map Char.toLower) 1 := by
  unfold parseTok
  rw [List.reverse_append]
  simp

theorem parseTok_no_tilde (t : List Char) (h : ∀ c ∈ t, ¬(c = '~')) :
    parseTok t = QTerm.exact (t.map Char.toLower) := by
  unfold parseTok
  rw [if_neg]
  intro hcon
  have hmem : '~' ∈ t.reverse.take 2 := by rw [hcon]; simp
  exact h '~' (List.mem_reverse.1 (List.mem_of_mem_take hmem)) rfl

theorem mem_joinToks (toks : List (List Char)) (t : List Char) (c : Char)
    (ht : t ∈ toks) (hc : c ∈ t) : c ∈ joinToks toks := by
  induction toks with
  | nil => cases ht
  | cons t0 r ih =>
    simp only [joinToks]
    rcases List.mem_cons.1 ht with rfl | hin
    · exact List.mem_append.2 (Or.inl hc)
    · have hr : r ≠ [] := by
        rintro rfl
        cases hin
      rw [if_neg hr]
      exact List.mem_append.2 (Or.inr (List.mem_cons_of_mem _ (ih hin)))

theorem parseFuzzyQuery_join (pre : List String) (lastT : String)
    (hvalid : ∀ t ∈ pre ++ [lastT],
      t.data ≠ [] ∧ ∀ c ∈ t.data, isPyWs c = false ∧ ¬(c = '~')) :
    parseFuzzyQuery (joinQuery (pre ++ [lastT]))
      = (pre.map fun s => QTerm.exact (s.data.map Char.toLower))
        ++ [QTerm.fuzzy (lastT.data.map Char.toLower) 1] := by
  unfold parseFuzzyQuery
  have hdata : (joinQuery (pre ++ [lastT]) ++ "~1").data
      = joinToks ((pre.map String.data) ++ [lastT.data]) ++ ['~', '1'] := by
    show (joinQuery (pre ++ [lastT])).data ++ "~1".data = _
    congr 1
    show joinToks ((pre ++ [lastT]).map String.data) = _
    rw [List.map_append]
    rfl
  rw [hdata]
  rw [splitWs_join (pre.map String.data) lastT.data ['~', '1']
      (fun t ht => by
        obtain ⟨s, hs, rfl⟩ := List.mem_map.1 ht
        obtain ⟨h1, h2⟩ := hvalid s (List.mem_append.2 (Or.inl hs))
        exact ⟨h1, fun c hc => (h2 c hc).1⟩)
      (hvalid lastT (by simp)).1
      (fun c hc => ((hvalid lastT (by simp)).2 c hc).1)
      (by decide)]
  rw [List.map_append, List.map_map]
  congr 1
  · apply List.map_congr_left
    intro s hs
    exact parseTok_no_tilde s.data
      fun c hc => ((hvalid s (List.mem_append.2 (Or.inl hs))).2 c hc).2
  · simp [parseTok_append_fuzzy]

theorem collectHit_path (db : List DbRow) (h : WhooshDoc) :
    (collectHit db h).path = h.path := by
  unfold collectHit
  cases hf : db.find? (fun r => r.path == h.path) with
  | none => rfl
  | some r =>
    have hr := List.find?_some hf
    simp only [beq_iff_eq] at hr
    simpa using hr
/-- Counterexample for C2: in the query `"Daftt Punk"` the term `"Daftt"`
differs from the indexed artist token `"daft"` by exactly one edit, so the
claim requires the track among the hits — but the code appends `~1` to the
whole query string, which makes only the last term (`Punk`) fuzzy; `daftt`
must then match exactly, it matches nothing, and the AND query returns no
hit at all. -/
theorem first_term_typo_not_matched :
    lev ("Daftt".data.map Char.toLower) "daft".data = 1 ∧
    "punk".data ∈ docTokensL daftDoc ∧
    (searchMC [daftDoc] [] "Daftt Punk" 200).map SearchHit.path = [] := by decide

/-- C2 as amended: only the LAST whitespace-separated term of the query is
matched fuzzily at edit distance 1 (because the code appends `~1` to the raw
query string and the fuzzy marker binds to the single term it suffixes);
every earlier term must match one of the track's artist/album/title tokens
exactly (after lower-casing).  Under that regime — all leading terms exact
matches, the final term within one edit of some token, and the hit count
within the limit — the track is returned among the search hits. -/
theorem search_fuzzy_last_term_membership (pre : List String) (lastT : String)
    (idx : IdxDB) (db : List DbRow) (d : WhooshDoc) (tok : List Char) (limit : Nat)
    (hvalid : ∀ t ∈ pre ++ [lastT],
      t.data ≠ [] ∧ ∀ c ∈ t.data, isPyWs c = false ∧ ¬(c = '~'))
    (hd : d ∈ idx)
    (hpre : ∀ s ∈ pre, (s.data.map Char.toLower) ∈ docTokensL d)
    (htok : tok ∈ docTokensL d)
    (hlev : lev (lastT.data.map Char.toLower) tok ≤ 1)
    (hlim : (idx.filter (matchesQuery (joinQuery (pre ++ [lastT])))).length ≤ limit) :
    d.path ∈ (searchMC idx db (joinQuery (pre ++ [lastT])) limit).map SearchHit.path := by
  have hparse := parseFuzzyQuery_join pre lastT hvalid
  have hmatch : matchesQuery (joinQuery (pre ++ [lastT])) d = true := by
    unfold matchesQuery
    rw [hparse, List.all_append, Bool.and_eq_true]
    refine ⟨?_, ?_⟩
    · rw [List.all_eq_true]
      intro x hx
      obtain ⟨s, hs, rfl⟩ := List.mem_map.1 hx
      simp only [matchTerm]
      exact decide_eq_true (hpre s hs)
    · simp only [List.all_cons, List.all_nil, Bool.and_true, matchTerm]
      rw [List.any_eq_true]
      exact ⟨tok, htok, decide_eq_true hlev⟩
  have hq : pyStrip (joinQuery (pre ++ [lastT])) ≠ "" := by
    obtain ⟨hlne, hlc⟩ := hvalid lastT (by simp)
    cases hLd : lastT.data with
    | nil => exact absurd hLd hlne
    | cons c cs =>
      refine pyStrip_ne_empty _ c ?_ ?_
      · show c ∈ joinToks ((pre ++ [lastT]).map String.data)
        exact mem_joinToks _ lastT.data c (by simp) (by rw [hLd]; exact List.mem_cons_self _ _)
      · exact (hlc c (by rw [hLd]; exact List.mem_cons_self _ _)).1
  unfold searchMC
  rw [if_neg hq]
  unfold whooshSearch
  rw [List.take_of_length_le hlim, List.map_map]
  exact List.mem_map.2 ⟨d, List.mem_filter.2 ⟨hd, hmatch⟩, by simp [collectHit_path]⟩

/-- Witness for the amended C2: the query `"Daft Punkk"` (typo in the LAST
term, one edit from `punk`) does return the indexed Daft Punk track. -/
theorem search_fuzzy_last_term_membership_witness :
    daftDoc.path ∈
      (searchMC [daftDoc] [] (joinQuery (["Daft"] ++ ["Punkk"])) 200).map
        SearchHit.path :=
  search_fuzzy_last_term_membership ["Daft"] "Punkk" [daftDoc] [] daftDoc
    "punk".data 200 (by decide) (by decide) (by decide) (by decide) (by decide)
    (by decide)

